import Mathlib

/-!
# awscredget: a shallow embedding of `main.go`

The program parses four flags, validates two of them, builds an STS client and
then either prints the caller identity or fetches temporary credentials and
prints them with one of three formatters.

The embedding makes the environment explicit: the outcome of
`config.LoadDefaultConfig` and the answers of the three STS operations are
inputs of `main`; what the process writes to standard output, the provider
calls it makes and the way it terminates are its result.  Pointer-typed SDK
fields are `Option`s, so a nil dereference is a visible outcome.  A Go string
is taken to be valid UTF-8, that is a sequence of Unicode characters.
-/

namespace Awscredget

/-! ## SDK data types used by `main.go` -/

/-- A `time.Time`: seconds since the Unix epoch and the zone offset (seconds
east of UTC) of its location. Sub-second precision is dropped, as the
RFC 3339 layout used by the program does not print it. -/
structure Time where
  unix : Int
  offset : Int
deriving DecidableEq, Repr

/-- The SDK type `types.Credentials`; every field is a pointer in Go. -/
structure Credentials where
  AccessKeyId : Option String
  Expiration : Option Time
  SecretAccessKey : Option String
  SessionToken : Option String
deriving DecidableEq, Repr

/-- The SDK type `sts.GetCallerIdentityOutput`. -/
structure GetCallerIdentityOutput where
  Account : Option String
  Arn : Option String
  UserId : Option String
deriving DecidableEq, Repr

/-- The SDK type `sts.GetSessionTokenInput`. -/
structure GetSessionTokenInput where
  DurationSeconds : Option Int
  SerialNumber : Option String
  TokenCode : Option String
deriving DecidableEq, Repr

/-- The SDK type `sts.GetSessionTokenOutput`. -/
structure GetSessionTokenOutput where
  Credentials : Option Credentials
deriving DecidableEq, Repr

/-- The SDK type `sts.AssumeRoleInput`, restricted to the two fields the
program sets and the duration field it leaves nil. -/
structure AssumeRoleInput where
  RoleArn : Option String
  RoleSessionName : Option String
  DurationSeconds : Option Int
deriving DecidableEq, Repr

/-- The SDK type `sts.AssumeRoleOutput`, restricted to the field the program
reads. -/
structure AssumeRoleOutput where
  Credentials : Option Credentials
deriving DecidableEq, Repr

/-- The STS client: the answer of each operation, an error carrying the text
of `err.Error()`. -/
structure Client where
  GetCallerIdentity : Except String GetCallerIdentityOutput
  GetSessionToken : GetSessionTokenInput → Except String GetSessionTokenOutput
  AssumeRole : AssumeRoleInput → Except String AssumeRoleOutput

/-- The environment of one run: what `config.LoadDefaultConfig` returns, and
the client `sts.NewFromConfig` then builds. -/
structure Env where
  LoadDefaultConfig : Except String Client

/-- A request sent to the identity provider. -/
inductive Request where
  | getCallerIdentity
  | getSessionToken (input : GetSessionTokenInput)
  | assumeRole (input : AssumeRoleInput)
deriving DecidableEq, Repr

/-- One provider call made by the process: the request and what came back. -/
inductive Call where
  | getCallerIdentity (resp : Except String GetCallerIdentityOutput)
  | getSessionToken (input : GetSessionTokenInput)
      (resp : Except String GetSessionTokenOutput)
  | assumeRole (input : AssumeRoleInput) (resp : Except String AssumeRoleOutput)

/-- The request of a call. -/
def Call.request : Call → Request
  | .getCallerIdentity _ => .getCallerIdentity
  | .getSessionToken i _ => .getSessionToken i
  | .assumeRole i _ => .assumeRole i

/-- The call came back with an error. -/
def Call.failed : Call → Bool
  | .getCallerIdentity (.error _) => true
  | .getSessionToken _ (.error _) => true
  | .assumeRole _ (.error _) => true
  | _ => false

/-- The call is a get-session-token call. -/
def Call.isSessionToken : Call → Bool
  | .getSessionToken _ _ => true
  | _ => false

/-- The call is an assume-role call. -/
def Call.isAssumeRole : Call → Bool
  | .assumeRole _ _ => true
  | _ => false

/-- The credentials object is absent or lacks one of the three strings. -/
def credsMissing : Option Credentials → Bool
  | none => true
  | some c => c.AccessKeyId.isNone || c.SecretAccessKey.isNone || c.SessionToken.isNone

/-- The call came back with a successful status but without a field the
program reads: the ARN, the credentials object, or one of its three strings. -/
def Call.missingFields : Call → Bool
  | .getCallerIdentity (.ok r) => r.Arn.isNone
  | .getSessionToken _ (.ok r) => credsMissing r.Credentials
  | .assumeRole _ (.ok r) => credsMissing r.Credentials
  | _ => false

/-! ## Process outcome -/

/-- How the process ends. `exit c` is `os.Exit(c)` or a return from `main`
(status 0); `fatal msg` is `log.Fatal`, which writes `msg` (after the
logger's timestamp prefix) to standard error and exits with status 1;
`panic msg` is a Go runtime panic, which writes `panic: msg` and a goroutine
trace to standard error and exits with status 2. -/
inductive Termination where
  | exit (code : Nat)
  | fatal (msg : String)
  | panic (msg : String)
deriving DecidableEq, Repr

/-- The exit status of the process. -/
def Termination.status : Termination → Nat
  | .exit c => c
  | .fatal _ => 1
  | .panic _ => 2

/-- What one run does: the text on standard output, the provider calls in
order, and the termination. -/
structure Outcome where
  stdout : String
  trace : List Call
  term : Termination

/-- The text of the runtime error raised by dereferencing a nil pointer. -/
def nilDeref : String :=
  "runtime error: invalid memory address or nil pointer dereference"

/-- The parsed command-line flags (`-d`, `-f`, `-r`, `-W`). -/
structure Flags where
  duration : Int
  outfmtStr : String
  assumeRole : String
  whoamiMode : Bool
deriving DecidableEq, Repr

/-- The flag defaults registered in `main`. -/
def defaultFlags : Flags :=
  { duration := 1800, outfmtStr := "sh", assumeRole := "", whoamiMode := false }

/-- The Go conversion `int32(n)`: the low 32 bits, read as a signed number. -/
def toInt32 (n : Int) : Int := (n + 2 ^ 31) % 2 ^ 32 - 2 ^ 31

/-! ## The library functions `main.go` calls

`shellescape.Quote`, `json.Marshal` and `time.Time.Format` are dependencies:
their source is not part of the program. They are modelled here, after the
specification's description of the three formats and the algorithms the
libraries publish. With them come the two readers against which the
formatters are checked: shell word parsing and JSON decoding. -/

/-- Modelled from the spec: the source of `shellescape` is missing. A
character matched by its pattern, the negated class of the word characters
(ASCII letters, digits, underscore) and of `@ % + = : , . / -`. -/
def unsafeChar (c : Char) : Bool :=
  !(c.isAlphanum || c = '_' || c = '@' || c = '%' || c = '+' || c = '=' || c = ':'
    || c = ',' || c = '.' || c = '/' || c = '-')

/-- Modelled from the spec: the source of `shellescape` is missing. The
replacement `strings.ReplaceAll(s, "'", "'\"'\"'")` it applies: every single
quote becomes the five characters quote, double quote, quote, double quote,
quote. -/
def escapeQuotes : List Char → List Char
  | [] => []
  | c :: cs =>
    if c = '\'' then '\'' :: '"' :: '\'' :: '"' :: '\'' :: escapeQuotes cs
    else c :: escapeQuotes cs

/-- Modelled from the spec: the source of `shellescape.Quote` is missing; the
spec asks for each value to be shell-escaped so that a shell reads it back
literally. The function on the characters of a string, as the library
computes it: the empty string becomes two quotes, a string with a character
outside the safe class is wrapped in single quotes with its quotes replaced,
any other string is returned as it is. -/
def quoteChars (s : List Char) : List Char :=
  if s.length = 0 then ['\'', '\'']
  else if s.any unsafeChar then '\'' :: (escapeQuotes s ++ ['\''])
  else s

/-- Modelled from the spec: the source of `shellescape.Quote` is missing. The
function on strings, see `quoteChars`. -/
def Quote (s : String) : String := ⟨quoteChars s.data⟩

/-- The state of the shell's word reader: outside quotes, inside single or
double quotes, and right after a backslash outside quotes or inside double
quotes. -/
inductive QState where
  | plain
  | single
  | double
  | plainEsc
  | doubleEsc
deriving DecidableEq, Repr

/-- A character that stands for itself in an unquoted shell word: letters,
digits and `_ @ % + = : , . / -`. Every other unquoted character (blanks,
operators, `$`, backtick, glob and brace characters, `~`, `#`, `!`) is outside
the fragment read here. -/
def plainChar (c : Char) : Bool := !(unsafeChar c)

/-- Reading one shell word with quote removal (POSIX shell, section 2.2): in
single quotes every character is literal up to the next single quote; in
double quotes a backslash escapes `$`, backtick, double quote and backslash
and removes a following newline, and stays literal before anything else;
outside quotes a backslash makes the next character literal and removes a
following newline. The word ends at the end of the input or at an unquoted
blank or newline, which is left in the rest. The result is `none` for an
unterminated quote and for anything that would need expansion. -/
def readWord : QState → List Char → Option (List Char × List Char)
  | .plain, [] => some ([], [])
  | .single, [] => none
  | .double, [] => none
  | .plainEsc, [] => none
  | .doubleEsc, [] => none
  | .plain, c :: cs =>
    if c = ' ' ∨ c = '\t' ∨ c = '\n' then some ([], c :: cs)
    else if c = '\'' then readWord .single cs
    else if c = '"' then readWord .double cs
    else if c = '\\' then readWord .plainEsc cs
    else if plainChar c then (readWord .plain cs).map (fun p => (c :: p.1, p.2))
    else none
  | .plainEsc, c :: cs =>
    if c = '\n' then readWord .plain cs
    else (readWord .plain cs).map (fun p => (c :: p.1, p.2))
  | .single, c :: cs =>
    if c = '\'' then readWord .plain cs
    else (readWord .single cs).map (fun p => (c :: p.1, p.2))
  | .double, c :: cs =>
    if c = '"' then readWord .plain cs
    else if c = '\\' then readWord .doubleEsc cs
    else if c = '$' ∨ c = Char.ofNat 96 then none
    else (readWord .double cs).map (fun p => (c :: p.1, p.2))
  | .doubleEsc, c :: cs =>
    if c = '\n' then readWord .double cs
    else if c = '$' ∨ c = Char.ofNat 96 ∨ c = '"' ∨ c = '\\' then
      (readWord .double cs).map (fun p => (c :: p.1, p.2))
    else (readWord .double cs).map (fun p => ('\\' :: c :: p.1, p.2))

/-- The value of a string that is exactly one shell word. -/
def shellWord (s : String) : Option String :=
  match readWord .plain s.data with
  | some (w, []) => some ⟨w⟩
  | _ => none

/-- Modelled from the spec: the source of `encoding/json` is missing. The
digit of `n` in its table `0123456789abcdef`. -/
def hexDigit (n : Nat) : Char :=
  if n < 10 then Char.ofNat (48 + n) else Char.ofNat (87 + n)

/-- Modelled from the spec: the source of `encoding/json` is missing. How it
writes one character of a string (HTML escaping on, as `json.Marshal` has it):
backslash and double quote get a backslash; backspace, form feed, newline,
carriage return and tab their short form (backspace and form feed since
Go 1.22; before, the form `\u00XY`, which reads back the same); the other
control characters and `<`, `>`, `&` the form `\u00XY`; U+2028 and U+2029 the
form `\u202X`; everything else is copied. -/
def escapeJSONChar (c : Char) : List Char :=
  if c = '\\' ∨ c = '"' then ['\\', c]
  else if c = '\x08' then ['\\', 'b']
  else if c = '\x0c' then ['\\', 'f']
  else if c = '\n' then ['\\', 'n']
  else if c = '\r' then ['\\', 'r']
  else if c = '\t' then ['\\', 't']
  else if c.toNat < 32 ∨ c = '<' ∨ c = '>' ∨ c = '&' then
    ['\\', 'u', '0', '0', hexDigit (c.toNat / 16), hexDigit (c.toNat % 16)]
  else if c = '\u2028' ∨ c = '\u2029' then
    ['\\', 'u', '2', '0', '2', hexDigit (c.toNat % 16)]
  else [c]

/-- Modelled from the spec: the source of `encoding/json` is missing. The
characters of a string, each written by `escapeJSONChar`. -/
def escapeJSON : List Char → List Char
  | [] => []
  | c :: cs => escapeJSONChar c ++ escapeJSON cs

/-- Modelled from the spec: the source of `encoding/json` is missing. A string
as it writes one: escaped, between double quotes. -/
def jsonString (s : String) : List Char :=
  '"' :: (escapeJSON s.data ++ ['"'])

/-- Modelled from the spec: the source of `encoding/json` is missing. Strict
order of two strings by code points, which is the byte order of their UTF-8
forms: the order in which it writes map keys. -/
def charsLt : List Char → List Char → Bool
  | _, [] => false
  | [], _ :: _ => true
  | a :: as, b :: bs => decide (a.toNat < b.toNat) || (decide (a = b) && charsLt as bs)

/-- Modelled from the spec: the source of `encoding/json` is missing.
Insertion of a map entry into a list sorted by key. -/
def insertByKey {α : Type} (e : String × α) : List (String × α) → List (String × α)
  | [] => [e]
  | x :: xs => if charsLt x.1.data e.1.data then x :: insertByKey e xs else e :: x :: xs

/-- Modelled from the spec: the source of `encoding/json` is missing. The
entries of a map, sorted by key. -/
def sortByKey {α : Type} : List (String × α) → List (String × α)
  | [] => []
  | x :: xs => insertByKey x (sortByKey xs)

/-- Modelled from the spec: the source of `encoding/json` is missing. The
members of a JSON object, separated by commas. -/
def joinMembers : List (List Char) → List Char
  | [] => []
  | [m] => m
  | m :: ms => m ++ ',' :: joinMembers ms

/-- Modelled from the spec: the source of `json.Marshal` is missing. The
function on a `map[string]string`, given by its entries: an object with the
keys in sorted order. -/
def marshalStringMap (m : List (String × String)) : List Char :=
  '{' :: (joinMembers ((sortByKey m).map (fun e => jsonString e.1 ++ ':' :: jsonString e.2))
    ++ ['}'])

/-- Modelled from the spec: the source of `json.Marshal` is missing. The
function on a `map[string]interface{}` whose values are `map[string]string`s:
an object with the keys in sorted order. -/
def marshalInterfaceMap (m : List (String × List (String × String))) : List Char :=
  '{' :: (joinMembers ((sortByKey m).map (fun e => jsonString e.1 ++ ':' :: marshalStringMap e.2))
    ++ ['}'])

/-- A decoded JSON value, for the two kinds of value the program writes. -/
inductive JValue where
  | str (s : String)
  | obj (members : List (String × JValue))

/-- The value of a hexadecimal digit. -/
def hexVal (c : Char) : Option Nat :=
  if '0'.toNat ≤ c.toNat ∧ c.toNat ≤ '9'.toNat then some (c.toNat - '0'.toNat)
  else if 'a'.toNat ≤ c.toNat ∧ c.toNat ≤ 'f'.toNat then some (c.toNat - 'a'.toNat + 10)
  else if 'A'.toNat ≤ c.toNat ∧ c.toNat ≤ 'F'.toNat then some (c.toNat - 'A'.toNat + 10)
  else none

/-- The character a one-letter JSON escape stands for (RFC 8259, section 7). -/
def unescape (c : Char) : Option Char :=
  if c = '"' ∨ c = '\\' ∨ c = '/' then some c
  else if c = 'b' then some '\x08'
  else if c = 'f' then some '\x0c'
  else if c = 'n' then some '\n'
  else if c = 'r' then some '\r'
  else if c = 't' then some '\t'
  else none

/-- The state of the JSON string reader: between escapes, right after a
backslash, or inside `\uXXXX` with `k` digits still to read and the value
`acc` of the digits read. -/
inductive SState where
  | normal
  | esc
  | hex (k : Nat) (acc : Nat)
deriving DecidableEq, Repr

/-- Consing a character onto the text of a reader result. -/
def consText (c : Char) (o : Option (List Char × List Char)) : Option (List Char × List Char) :=
  o.map (fun p => (c :: p.1, p.2))

/-- Reading a JSON string after its opening quote (RFC 8259, section 7): the
text up to the closing quote with the escapes replaced, and the rest of the
input. The result is `none` for an unterminated string, a raw control
character, an unknown escape, and for a `\uXXXX` escape in the surrogate
range, which is outside the fragment read here. -/
def readString : SState → List Char → Option (List Char × List Char)
  | _, [] => none
  | .normal, c :: cs =>
    if c = '"' then some ([], cs)
    else if c = '\\' then readString .esc cs
    else if c.toNat < 32 then none
    else consText c (readString .normal cs)
  | .esc, c :: cs =>
    if c = 'u' then readString (.hex 4 0) cs
    else (unescape c).bind (fun d => consText d (readString .normal cs))
  | .hex k acc, c :: cs =>
    (hexVal c).bind (fun v =>
      if k ≤ 1 then
        if 55296 ≤ acc * 16 + v ∧ acc * 16 + v < 57344 then none
        else consText (Char.ofNat (acc * 16 + v)) (readString .normal cs)
      else readString (.hex (k - 1) (acc * 16 + v)) cs)

/-- Dropping leading JSON whitespace. -/
def skipWs : List Char → List Char
  | [] => []
  | c :: cs => if c = ' ' ∨ c = '\t' ∨ c = '\n' ∨ c = '\r' then skipWs cs else c :: cs

/-- What the JSON reader is about to read: a value, or the members of an
object after its opening brace or after a comma. -/
inductive PMode where
  | value
  | members
deriving DecidableEq, Repr

/-- Reading a JSON value made of objects and strings, with whitespace allowed
between tokens; `fuel` bounds the number of values and members read. In mode
`members` the result is the object made of the members read up to the closing
brace. Numbers, arrays and literals are outside the fragment read here. -/
def parseJSON : Nat → PMode → List Char → Option (JValue × List Char)
  | 0, _, _ => none
  | fuel + 1, .value, cs =>
    match skipWs cs with
    | [] => none
    | c :: r =>
      if c = '"' then (readString .normal r).map (fun p => (JValue.str ⟨p.1⟩, p.2))
      else if c = '{' then
        match skipWs r with
        | [] => none
        | d :: r2 => if d = '}' then some (JValue.obj [], r2) else parseJSON fuel .members (d :: r2)
      else none
  | fuel + 1, .members, cs =>
    match skipWs cs with
    | [] => none
    | c :: r =>
      if c = '"' then
        (readString .normal r).bind (fun k =>
          match skipWs k.2 with
          | [] => none
          | d :: r2 =>
            if d = ':' then
              (parseJSON fuel .value r2).bind (fun v =>
                match skipWs v.2 with
                | [] => none
                | e :: r3 =>
                  if e = '}' then some (JValue.obj [(⟨k.1⟩, v.1)], r3)
                  else if e = ',' then
                    (parseJSON fuel .members r3).bind (fun ms =>
                      match ms.1 with
                      | JValue.obj l => some (JValue.obj ((⟨k.1⟩, v.1) :: l), ms.2)
                      | JValue.str _ => none)
                  else none)
            else none)
      else none

/-- Decoding a JSON text: one value, with nothing but whitespace after it. -/
def decodeJSON (s : String) : Option JValue :=
  match parseJSON (s.length + 1) .value s.data with
  | some (v, rest) => if skipWs rest = [] then some v else none
  | none => none

/-- Modelled from the spec: the source of package `time` is missing. Its
function `appendInt`: the decimal digits of `x`, after a minus sign if it is
negative, padded with zeros to `width` digits. -/
def appendInt (x : Int) (width : Nat) : List Char :=
  let ds := Nat.toDigits 10 x.natAbs
  (if x < 0 then ['-'] else []) ++ (List.replicate (width - ds.length) '0' ++ ds)

/-- Modelled from the spec: the source of package `time` is missing. The year,
month and day of a day number counted from 1970-01-01, in the proleptic
Gregorian calendar (the date `time.Time.Format` prints). -/
def civilFromDays (days : Int) : Int × Int × Int :=
  let z := days + 719468
  let era := z / 146097
  let doe := z % 146097
  let yoe := (doe - doe / 1460 + doe / 36524 - doe / 146096) / 365
  let doy := doe - (365 * yoe + yoe / 4 - yoe / 100)
  let mp := (5 * doy + 2) / 153
  let d := doy - (153 * mp + 2) / 5 + 1
  let m := if mp < 10 then mp + 3 else mp - 9
  let y := yoe + era * 400 + (if m ≤ 2 then 1 else 0)
  (y, m, d)

/-- Modelled from the spec: the source of package `time` is missing. The zone
part of the layout `Z07:00`: `Z` for offset zero, else the sign and the hours
and minutes of the offset. -/
def formatZone (offset : Int) : List Char :=
  if offset = 0 then ['Z']
  else
    let zone := Int.tdiv offset 60
    if zone < 0 then '-' :: (appendInt (Int.tdiv (-zone) 60) 2 ++ ':' :: appendInt (Int.tmod (-zone) 60) 2)
    else '+' :: (appendInt (Int.tdiv zone 60) 2 ++ ':' :: appendInt (Int.tmod zone 60) 2)

/-- Modelled from the spec: the source of `time.Time.Format` is missing; the
spec asks for the expiration formatted per RFC 3339. The call
`t.Format(time.RFC3339)`, layout `2006-01-02T15:04:05Z07:00`. -/
def formatRFC3339 (t : Time) : String :=
  let loc := t.unix + t.offset
  let secs := loc % 86400
  let ymd := civilFromDays (loc / 86400)
  ⟨appendInt ymd.1 4 ++ '-' :: (appendInt ymd.2.1 2 ++ '-' :: (appendInt ymd.2.2 2 ++ 'T' ::
    (appendInt (secs / 3600) 2 ++ ':' :: (appendInt (secs % 3600 / 60) 2 ++ ':' ::
    (appendInt (secs % 60) 2 ++ formatZone t.offset)))))⟩

/-! ## The program -/

/-- What `printWhoami` did: its provider call, what it printed, and its
result, which is `none` for a nil dereference and else the returned error
(`none` for nil). -/
structure WhoamiResult where
  call : Call
  stdout : String
  result : Option (Option String)

/-- The function `printWhoami`: one get-caller-identity call; its error is
returned, else the ARN is dereferenced and printed with a newline. -/
def printWhoami (client : Client) : WhoamiResult :=
  match client.GetCallerIdentity with
  | .error err => ⟨.getCallerIdentity (.error err), "", some (some err)⟩
  | .ok resp =>
    match resp.Arn with
    | none => ⟨.getCallerIdentity (.ok resp), "", none⟩
    | some arn => ⟨.getCallerIdentity (.ok resp), arn ++ "\n", some none⟩

/-- The function `printCredsText`: the text it prints, `none` when one of the
three pointers it dereferences is nil. -/
def printCredsText (creds : Credentials) : Option String :=
  match creds.AccessKeyId, creds.SecretAccessKey, creds.SessionToken with
  | some a, some s, some t => some (a ++ " " ++ s ++ " " ++ t ++ "\n")
  | _, _, _ => none

/-- The function `printCredsShell`: the text it prints, `none` when one of the
three pointers it dereferences is nil. -/
def printCredsShell (creds : Credentials) : Option String :=
  match creds.AccessKeyId, creds.SecretAccessKey, creds.SessionToken with
  | some a, some s, some t =>
    some ("export AWS_ACCESS_KEY_ID=" ++ Quote a ++ "\nexport AWS_SECRET_ACCESS_KEY=" ++ Quote s
      ++ "\nexport AWS_SESSION_TOKEN=" ++ Quote t ++ "\n")
  | _, _, _ => none

/-- The map `jsonData` built by `printCredsJson`, in the order of the source. -/
def jsonData (a s t : String) (e : Time) : List (String × List (String × String)) :=
  [("Credentials",
    [("AccessKeyId", a), ("SecretAccessKey", s), ("SessionToken", t),
     ("Expiration", formatRFC3339 e)])]

/-- The function `printCredsJson`: the text it prints (the marshalled map and a
newline), `none` when one of the four pointers it dereferences is nil.
Marshalling a map of strings cannot fail, so the panic on a marshalling error
is never reached. -/
def printCredsJson (creds : Credentials) : Option String :=
  match creds.AccessKeyId, creds.SecretAccessKey, creds.SessionToken, creds.Expiration with
  | some a, some s, some t, some e => some (⟨marshalInterfaceMap (jsonData a s t e)⟩ ++ "\n")
  | _, _, _, _ => none

/-- The value of the variable `outfmt`: one of the three print functions. -/
inductive Formatter where
  | text
  | sh
  | json
deriving DecidableEq, Repr

/-- Calling the function held by `outfmt`. -/
def Formatter.call : Formatter → Credentials → Option String
  | .text => printCredsText
  | .sh => printCredsShell
  | .json => printCredsJson

/-- The switch on `outfmtStr` in `main`; `none` is the default branch. -/
def selectFormatter (outfmtStr : String) : Option Formatter :=
  if outfmtStr = "text" then some .text
  else if outfmtStr = "sh" then some .sh
  else if outfmtStr = "json" then some .json
  else none

/-- The two checks `main` makes after `flag.Parse`: the duration range, then
the output format. An error is the message given to `log.Fatal`. -/
def validate (flags : Flags) : Except String Formatter :=
  if flags.duration < 900 ∨ flags.duration > 43200 then
    .error "session duration must be between 900 and 43200 seconds"
  else
    match selectFormatter flags.outfmtStr with
    | none => .error ("unknown output format: " ++ flags.outfmtStr)
    | some outfmt => .ok outfmt

/-- The end of `main`: `outfmt(creds)`, then a normal return. -/
def emit (outfmt : Formatter) (trace : List Call) (creds : Option Credentials) : Outcome :=
  match creds with
  | none => ⟨"", trace, .panic nilDeref⟩
  | some c =>
    match outfmt.call c with
    | none => ⟨"", trace, .panic nilDeref⟩
    | some out => ⟨out, trace, .exit 0⟩

/-- The function `main`, after `flag.Parse`. -/
def main (flags : Flags) (env : Env) : Outcome :=
  match validate flags with
  | .error msg => ⟨"", [], .fatal msg⟩
  | .ok outfmt =>
    match env.LoadDefaultConfig with
    | .error err => ⟨"", [], .fatal ("unable to load AWS SDK config: " ++ err)⟩
    | .ok client =>
      if flags.whoamiMode then
        let w := printWhoami client
        match w.result with
        | none => ⟨w.stdout, [w.call], .panic nilDeref⟩
        | some (some err) => ⟨w.stdout, [w.call], .fatal ("unable to fetch caller identity: " ++ err)⟩
        | some none => ⟨w.stdout, [w.call], .exit 0⟩
      else if flags.assumeRole = "" then
        let input : GetSessionTokenInput :=
          { DurationSeconds := some (toInt32 flags.duration), SerialNumber := none,
            TokenCode := none }
        match client.GetSessionToken input with
        | .error err =>
          ⟨"", [.getSessionToken input (.error err)],
            .fatal ("unable to acquire session token: " ++ err)⟩
        | .ok tokenResp =>
          emit outfmt [.getSessionToken input (.ok tokenResp)] tokenResp.Credentials
      else
        let input : AssumeRoleInput :=
          { RoleArn := some flags.assumeRole, RoleSessionName := some "awscredget",
            DurationSeconds := none }
        match client.AssumeRole input with
        | .error err =>
          ⟨"", [.assumeRole input (.error err)],
            .fatal ("unable to assume role " ++ flags.assumeRole ++ ": " ++ err)⟩
        | .ok assumeResp =>
          emit outfmt [.assumeRole input (.ok assumeResp)] assumeResp.Credentials

/-- The members of a decoded object whose values are all strings. -/
def stringMembers : List (String × JValue) → Option (List (String × String))
  | [] => some []
  | (k, JValue.str v) :: ms => (stringMembers ms).map (fun l => (k, v) :: l)
  | (_, JValue.obj _) :: _ => none

/-- The fields under the only top-level key `Credentials` of a decoded
document, when they are all strings. -/
def credentialFields : Option JValue → Option (List (String × String))
  | some (JValue.obj [(k, JValue.obj ms)]) => if k = "Credentials" then stringMembers ms else none
  | _ => none

/-- The document `printCredsJson` is expected to write, as a decoded value. -/
def credentialsDoc (a s t x : String) : JValue :=
  JValue.obj [("Credentials", JValue.obj [("AccessKeyId", JValue.str a),
    ("Expiration", JValue.str x), ("SecretAccessKey", JValue.str s),
    ("SessionToken", JValue.str t)])]

/-- The JSON text given in the specification for the sample credentials. -/
def specJSON : String :=
  "\x7b\"Credentials\":\x7b\"AccessKeyId\":\"AK1\",\"SecretAccessKey\":\"SK/1\"," ++
  "\"SessionToken\":\"TOK=1\",\"Expiration\":\"2024-01-02T15:04:05Z\"\x7d\x7d"

/-- The input after a leading text, `none` when it does not start with it. -/
def dropLeading : List Char → List Char → Option (List Char)
  | [], cs => some cs
  | _ :: _, [] => none
  | p :: ps, c :: cs => if p = c then dropLeading ps cs else none

/-- Reading one line `export WORD`: the word after quote removal and the input
after the newline that ends the command. -/
def readExportLine (cs : List Char) : Option (List Char × List Char) :=
  (dropLeading "export ".data cs).bind (fun r =>
    (readWord .plain r).bind (fun w =>
      match w.2 with
      | [] => none
      | c :: rest => if c = '\n' then some (w.1, rest) else none))

/-- Reading a script made of `export WORD` lines: the words handed to `export`,
in order; `fuel` bounds the number of lines. -/
def readScript : Nat → List Char → Option (List String)
  | _, [] => some []
  | 0, _ :: _ => none
  | fuel + 1, c :: cs =>
    (readExportLine (c :: cs)).bind (fun l => (readScript fuel l.2).map (fun ws => ⟨l.1⟩ :: ws))

/-- The words a shell hands to `export` when it evaluates a script of
`export WORD` lines. -/
def evalExports (s : String) : Option (List String) := readScript s.length s.data

/-! ## Sample inputs -/

/-- The credentials of the examples: AK1, SK/1, TOK=1, expiring at
2024-01-02T15:04:05Z. -/
def sampleCreds : Credentials :=
  { AccessKeyId := some "AK1", Expiration := some ⟨1704207845, 0⟩,
    SecretAccessKey := some "SK/1", SessionToken := some "TOK=1" }

/-- A client whose three operations succeed. -/
def sampleClient : Client :=
  { GetCallerIdentity := .ok ⟨some "123", some "arn:aws:iam::123:user/x", some "AIDAX"⟩
    GetSessionToken := fun _ => .ok ⟨some sampleCreds⟩
    AssumeRole := fun _ => .ok ⟨some sampleCreds⟩ }

/-- An environment in which the configuration loads and every call succeeds. -/
def sampleEnv : Env := ⟨.ok sampleClient⟩

/-- An environment in which loading the SDK configuration fails. -/
def brokenConfigEnv : Env := ⟨.error "failed to load shared config file"⟩

/-- An environment whose provider answers every call with an error. -/
def failingEnv : Env :=
  ⟨.ok { GetCallerIdentity := .error "ExpiredToken"
         GetSessionToken := fun _ => .error "ExpiredToken"
         AssumeRole := fun _ => .error "AccessDenied" }⟩

/-- An environment whose provider answers with a successful status and no
fields. -/
def emptyResponseEnv : Env :=
  ⟨.ok { GetCallerIdentity := .ok ⟨none, none, none⟩
         GetSessionToken := fun _ => .ok ⟨none⟩
         AssumeRole := fun _ => .ok ⟨none⟩ }⟩

/-! ## Shell quoting: reading back what `Quote` wrote -/

theorem option_map_map_cons (o : Option (List Char × List Char)) (c : Char) (s : List Char) :
    (o.map (fun p => (s ++ p.1, p.2))).map (fun p => (c :: p.1, p.2))
      = o.map (fun p => (c :: (s ++ p.1), p.2)) := by
  cases o <;> simp

theorem readWord_single_escapeQuotes (s rest : List Char) :
    readWord .single (escapeQuotes s ++ '\'' :: rest)
      = (readWord .plain rest).map (fun p => (s ++ p.1, p.2)) := by
  induction s with
  | nil => cases h : readWord .plain rest <;> simp [escapeQuotes, readWord, h]
  | cons c cs ih =>
    by_cases hc : c = '\''
    · subst hc
      simp only [escapeQuotes, if_true, List.cons_append]
      simp only [readWord, if_true]
      simp only [readWord, show ¬ (('"' : Char) = ' ' ∨ ('"' : Char) = '\t' ∨ ('"' : Char) = '\n') by decide,
        show ¬ (('"' : Char) = '\'') by decide,
        show ¬ (('\'' : Char) = ' ' ∨ ('\'' : Char) = '\t' ∨ ('\'' : Char) = '\n') by decide,
        show ¬ (('\'' : Char) = '"') by decide, show ¬ (('\'' : Char) = '\\') by decide,
        show ¬ (('\'' : Char) = '$' ∨ ('\'' : Char) = Char.ofNat 96) by decide,
        if_false, if_true, ih, option_map_map_cons]
    · simp only [escapeQuotes, hc, if_false, List.cons_append, readWord, ih,
        option_map_map_cons]

theorem plainChar_ne (c : Char) (h : plainChar c = true) :
    ¬ (c = ' ' ∨ c = '\t' ∨ c = '\n') ∧ c ≠ '\'' ∧ c ≠ '"' ∧ c ≠ '\\' := by
  refine ⟨?_, ?_, ?_, ?_⟩
  · rintro (rfl | rfl | rfl) <;> revert h <;> decide
  all_goals (rintro rfl; revert h; decide)

theorem readWord_plain_append (s rest : List Char) (hs : s.any unsafeChar = false) :
    readWord .plain (s ++ rest)
      = (readWord .plain rest).map (fun p => (s ++ p.1, p.2)) := by
  induction s with
  | nil => cases h : readWord .plain rest <;> simp [h]
  | cons c cs ih =>
    simp only [List.any_cons, Bool.or_eq_false_iff] at hs
    have hp : plainChar c = true := by simp [plainChar, hs.1]
    obtain ⟨h1, h2, h3, h4⟩ := plainChar_ne c hp
    simp only [List.cons_append, readWord, h1, h2, h3, h4, hp, if_false, if_true,
      List.append_eq, ih hs.2, option_map_map_cons]

theorem readWord_quoteChars (s : List Char) :
    readWord .plain (quoteChars s) = some (s, []) := by
  unfold quoteChars
  split
  · rename_i h
    have : s = [] := List.length_eq_zero.mp h
    subst this
    simp [readWord]
  · split
    · have := readWord_single_escapeQuotes s []
      simp only [readWord, Option.map_some', List.append_nil] at this
      simp only [readWord, if_true,
        show ¬ (('\'' : Char) = ' ' ∨ ('\'' : Char) = '\t' ∨ ('\'' : Char) = '\n') by decide,
        if_false, this]
    · rename_i h
      have := readWord_plain_append s [] (by simpa using h)
      simpa [readWord] using this

theorem shellWord_Quote (s : String) : shellWord (Quote s) = some s := by
  simp [shellWord, Quote, readWord_quoteChars]

theorem readWord_quoteChars_append (v rest : List Char) :
    readWord .plain (quoteChars v ++ rest)
      = (readWord .plain rest).map (fun p => (v ++ p.1, p.2)) := by
  unfold quoteChars
  split
  · rename_i h
    have : v = [] := List.length_eq_zero.mp h
    subst this
    cases hr : readWord .plain rest <;> simp [readWord, hr]
  · split
    · have := readWord_single_escapeQuotes v rest
      have e : ('\'' :: (escapeQuotes v ++ ['\''])) ++ rest
          = '\'' :: (escapeQuotes v ++ '\'' :: rest) := by simp
      rw [e]
      simp only [readWord, if_true,
        show ¬ (('\'' : Char) = ' ' ∨ ('\'' : Char) = '\t' ∨ ('\'' : Char) = '\n') by decide,
        if_false, this]
    · rename_i h
      exact readWord_plain_append v rest (by simpa using h)

theorem dropLeading_append (p cs : List Char) : dropLeading p (p ++ cs) = some cs := by
  induction p with
  | nil => cases cs <;> rfl
  | cons c p ih => simp [dropLeading, ih]

theorem readExportLine_quote (name v rest : List Char) (hn : name.any unsafeChar = false) :
    readExportLine ("export ".data ++ (name ++ (quoteChars v ++ '\n' :: rest)))
      = some (name ++ v, rest) := by
  have hnl : readWord .plain ('\n' :: rest) = some ([], '\n' :: rest) := by simp [readWord]
  rw [readExportLine, dropLeading_append]
  simp [readWord_plain_append _ _ hn, readWord_quoteChars_append, hnl]

theorem readScript_line (n : Nat) (name v rest : List Char)
    (hn : name.any unsafeChar = false) :
    readScript (n + 1) ("export ".data ++ (name ++ (quoteChars v ++ '\n' :: rest)))
      = (readScript n rest).map (fun ws => ⟨name ++ v⟩ :: ws) := by
  have hline := readExportLine_quote name v rest hn
  have hcons : "export ".data ++ (name ++ (quoteChars v ++ '\n' :: rest))
      = 'e' :: ("xport ".data ++ (name ++ (quoteChars v ++ '\n' :: rest))) := rfl
  rw [hcons] at hline ⊢
  simp only [readScript, hline, Option.some_bind]

theorem shellOutput_data (a s t : String) :
    ("export AWS_ACCESS_KEY_ID=" ++ Quote a ++ "\nexport AWS_SECRET_ACCESS_KEY=" ++ Quote s
        ++ "\nexport AWS_SESSION_TOKEN=" ++ Quote t ++ "\n").data
      = "export ".data ++ ("AWS_ACCESS_KEY_ID=".data ++ (quoteChars a.data ++ '\n' ::
        ("export ".data ++ ("AWS_SECRET_ACCESS_KEY=".data ++ (quoteChars s.data ++ '\n' ::
        ("export ".data ++ ("AWS_SESSION_TOKEN=".data ++ (quoteChars t.data ++ '\n' :: [])))))))) := by
  simp only [String.data_append, Quote, List.append_assoc]
  rfl

theorem evalExports_shellOutput (a s t : String) :
    evalExports ("export AWS_ACCESS_KEY_ID=" ++ Quote a ++ "\nexport AWS_SECRET_ACCESS_KEY="
        ++ Quote s ++ "\nexport AWS_SESSION_TOKEN=" ++ Quote t ++ "\n")
      = some ["AWS_ACCESS_KEY_ID=" ++ a, "AWS_SECRET_ACCESS_KEY=" ++ s,
          "AWS_SESSION_TOKEN=" ++ t] := by
  have hl : 3 ≤ ("export AWS_ACCESS_KEY_ID=" ++ Quote a ++ "\nexport AWS_SECRET_ACCESS_KEY="
        ++ Quote s ++ "\nexport AWS_SESSION_TOKEN=" ++ Quote t ++ "\n").length := by
    rw [String.length, shellOutput_data]
    simp only [List.length_cons, List.length_append]
    omega
  generalize hlen : ("export AWS_ACCESS_KEY_ID=" ++ Quote a ++ "\nexport AWS_SECRET_ACCESS_KEY="
        ++ Quote s ++ "\nexport AWS_SESSION_TOKEN=" ++ Quote t ++ "\n").length = len at hl
  obtain ⟨m, hm⟩ : ∃ m, len = m + 3 := ⟨len - 3, by omega⟩
  rw [evalExports, hlen, hm, shellOutput_data,
    readScript_line (m + 2) _ _ _ (by decide), readScript_line (m + 1) _ _ _ (by decide),
    readScript_line m _ _ _ (by decide)]
  cases m <;> rfl

/-! ## JSON strings: reading back what `encoding/json` wrote -/

theorem hexVal_hexDigit (k : Nat) (h : k < 16) : hexVal (hexDigit k) = some k := by
  interval_cases k <;> decide

theorem readString_u00 (c : Char) (h : c.toNat < 128) (tail : List Char) :
    readString .normal ('\\' :: 'u' :: '0' :: '0' :: hexDigit (c.toNat / 16)
        :: hexDigit (c.toNat % 16) :: tail)
      = consText c (readString .normal tail) := by
  have h1 : hexVal (hexDigit (c.toNat / 16)) = some (c.toNat / 16) :=
    hexVal_hexDigit _ (by omega)
  have h2 : hexVal (hexDigit (c.toNat % 16)) = some (c.toNat % 16) :=
    hexVal_hexDigit _ (by omega)
  have h0 : hexVal '0' = some 0 := by decide
  have hn : c.toNat / 16 * 16 + c.toNat % 16 = c.toNat := by omega
  have hs : ¬ (55296 ≤ c.toNat ∧ c.toNat < 57344) := by omega
  simp [readString, h0, h1, h2, hn, hs, Char.ofNat_toNat]

theorem readString_escapeJSONChar (c : Char) (tail : List Char) :
    readString .normal (escapeJSONChar c ++ tail) = consText c (readString .normal tail) := by
  unfold escapeJSONChar
  split
  · rename_i h
    rcases h with rfl | rfl <;> simp [readString, unescape]
  split
  · rename_i h; subst h; simp [readString, unescape]
  split
  · rename_i h; subst h; simp [readString, unescape]
  split
  · rename_i h; subst h; simp [readString, unescape]
  split
  · rename_i h; subst h; simp [readString, unescape]
  split
  · rename_i h; subst h; simp [readString, unescape]
  split
  · rename_i h
    have h128 : c.toNat < 128 := by
      rcases h with h | rfl | rfl | rfl
      · omega
      all_goals decide
    simpa using readString_u00 c h128 tail
  split
  · rename_i h
    rcases h with rfl | rfl
    · have e : Char.ofNat 8232 = '\u2028' := by decide
      simp [readString, hexVal, hexDigit, e]
    · have e : Char.ofNat 8233 = '\u2029' := by decide
      simp [readString, hexVal, hexDigit, e]
  · rename_i h1 _ _ _ _ _ h7 _
    have hq : c ≠ '"' := fun h => h1 (Or.inr h)
    have hb : c ≠ '\\' := fun h => h1 (Or.inl h)
    have hc : ¬ c.toNat < 32 := fun h => h7 (Or.inl h)
    simp [readString, hq, hb, hc]

theorem readString_escapeJSON (s rest : List Char) :
    readString .normal (escapeJSON s ++ '"' :: rest) = some (s, rest) := by
  induction s with
  | nil => simp [escapeJSON, readString]
  | cons c cs ih =>
    simp only [escapeJSON, List.append_assoc]
    rw [readString_escapeJSONChar, ih]
    rfl

theorem readString_jsonString (s : String) (rest : List Char) :
    readString .normal (escapeJSON s.data ++ '"' :: rest) = some (s.data, rest) :=
  readString_escapeJSON s.data rest

/-! ## JSON documents: reading back what `json.Marshal` wrote -/

theorem skipWs_quote (cs : List Char) : skipWs ('"' :: cs) = '"' :: cs := by
  simp [skipWs]

theorem skipWs_token (c : Char) (cs : List Char)
    (h : c = ':' ∨ c = ',' ∨ c = '{' ∨ c = '}') : skipWs (c :: cs) = c :: cs := by
  rcases h with rfl | rfl | rfl | rfl <;> simp [skipWs]

theorem parseJSON_string (n : Nat) (s : String) (rest : List Char) :
    parseJSON (n + 1) .value ('"' :: (escapeJSON s.data ++ '"' :: rest))
      = some (JValue.str s, rest) := by
  simp [parseJSON, skipWs_quote, readString_jsonString]

theorem parseJSON_object (n : Nat) (cs : List Char) :
    parseJSON (n + 1) .value ('{' :: '"' :: cs) = parseJSON n .members ('"' :: cs) := by
  simp [parseJSON, skipWs_quote, skipWs_token]

theorem parseJSON_member_last (n : Nat) (k : String) (v : JValue) (cs rest : List Char)
    (hv : parseJSON n .value cs = some (v, '}' :: rest)) :
    parseJSON (n + 1) .members ('"' :: (escapeJSON k.data ++ '"' :: ':' :: cs))
      = some (JValue.obj [(k, v)], rest) := by
  simp [parseJSON, skipWs_quote, skipWs_token, readString_jsonString, hv]

theorem parseJSON_member_more (n : Nat) (k : String) (v : JValue)
    (l : List (String × JValue)) (cs mid rest : List Char)
    (hv : parseJSON n .value cs = some (v, ',' :: mid))
    (hm : parseJSON n .members mid = some (JValue.obj l, rest)) :
    parseJSON (n + 1) .members ('"' :: (escapeJSON k.data ++ '"' :: ':' :: cs))
      = some (JValue.obj ((k, v) :: l), rest) := by
  simp [parseJSON, skipWs_quote, skipWs_token, readString_jsonString, hv, hm]

theorem sortByKey_credentials (a s t x : String) :
    sortByKey [("AccessKeyId", a), ("SecretAccessKey", s), ("SessionToken", t), ("Expiration", x)]
      = [("AccessKeyId", a), ("Expiration", x), ("SecretAccessKey", s), ("SessionToken", t)] := by
  have h1 : charsLt "SessionToken".data "Expiration".data = false := by decide
  have h2 : charsLt "SecretAccessKey".data "Expiration".data = false := by decide
  have h3 : charsLt "SessionToken".data "SecretAccessKey".data = false := by decide
  have h4 : charsLt "AccessKeyId".data "Expiration".data = true := by decide
  have h5 : charsLt "Expiration".data "AccessKeyId".data = false := by decide
  simp only [sortByKey, insertByKey, h1, h2, h3, h4, h5, if_true, if_false, Bool.false_eq_true]

theorem marshal_jsonData (a s t : String) (e : Time) :
    marshalInterfaceMap (jsonData a s t e)
      = '{' :: '"' :: (escapeJSON "Credentials".data ++ '"' :: ':' ::
        '{' :: '"' :: (escapeJSON "AccessKeyId".data ++ '"' :: ':' ::
          '"' :: (escapeJSON a.data ++ '"' :: ',' ::
        '"' :: (escapeJSON "Expiration".data ++ '"' :: ':' ::
          '"' :: (escapeJSON (formatRFC3339 e).data ++ '"' :: ',' ::
        '"' :: (escapeJSON "SecretAccessKey".data ++ '"' :: ':' ::
          '"' :: (escapeJSON s.data ++ '"' :: ',' ::
        '"' :: (escapeJSON "SessionToken".data ++ '"' :: ':' ::
          '"' :: (escapeJSON t.data ++ '"' :: '}' :: ['}']))))))))) := by
  simp [marshalInterfaceMap, jsonData, marshalStringMap, sortByKey_credentials, sortByKey,
    insertByKey, joinMembers, jsonString]

theorem parseJSON_jsonData (n : Nat) (a s t : String) (e : Time) (rest : List Char) :
    parseJSON (n + 8) .value (marshalInterfaceMap (jsonData a s t e) ++ rest)
      = some (credentialsDoc a s t (formatRFC3339 e), rest) := by
  rw [marshal_jsonData]
  simp only [List.cons_append, List.append_assoc, List.singleton_append]
  rw [parseJSON_object]
  refine parseJSON_member_last (n + 6) _ _ _ _ ?_
  rw [parseJSON_object]
  refine parseJSON_member_more (n + 4) _ _ _ _ _ _ (parseJSON_string (n + 3) _ _) ?_
  refine parseJSON_member_more (n + 3) _ _ _ _ _ _ (parseJSON_string (n + 2) _ _) ?_
  refine parseJSON_member_more (n + 2) _ _ _ _ _ _ (parseJSON_string (n + 1) _ _) ?_
  exact parseJSON_member_last (n + 1) _ _ _ _ (parseJSON_string n _ _)

theorem decodeJSON_jsonData (a s t : String) (e : Time) :
    decodeJSON (⟨marshalInterfaceMap (jsonData a s t e)⟩ ++ "\n")
      = some (credentialsDoc a s t (formatRFC3339 e)) := by
  have hd : ((⟨marshalInterfaceMap (jsonData a s t e)⟩ : String) ++ "\n").data
      = marshalInterfaceMap (jsonData a s t e) ++ ['\n'] := by
    rw [String.data_append]
  have hl : 7 ≤ ((⟨marshalInterfaceMap (jsonData a s t e)⟩ : String) ++ "\n").length := by
    rw [String.length, hd, marshal_jsonData]
    simp only [List.length_cons, List.length_append]
    omega
  generalize hlen : ((⟨marshalInterfaceMap (jsonData a s t e)⟩ : String) ++ "\n").length
    = len at hl
  obtain ⟨m, hm⟩ : ∃ m, len + 1 = m + 8 := ⟨len - 7, by omega⟩
  rw [decodeJSON, hlen, hm, hd, parseJSON_jsonData]
  rfl

/-! ## Argument validation -/

theorem validate_eq_ok_iff (flags : Flags) (outfmt : Formatter) :
    validate flags = .ok outfmt
      ↔ (900 ≤ flags.duration ∧ flags.duration ≤ 43200)
        ∧ selectFormatter flags.outfmtStr = some outfmt := by
  unfold validate
  split
  · rename_i h
    constructor
    · intro h'; cases h'
    · rintro ⟨⟨h1, h2⟩, -⟩; omega
  · rename_i h
    have hd : 900 ≤ flags.duration ∧ flags.duration ≤ 43200 := by omega
    cases hs : selectFormatter flags.outfmtStr <;> simp [hd]

theorem validate_bad_duration (flags : Flags)
    (h : ¬ (900 ≤ flags.duration ∧ flags.duration ≤ 43200)) :
    validate flags = .error "session duration must be between 900 and 43200 seconds" := by
  unfold validate
  rw [if_pos (by omega)]

theorem validate_bad_format (flags : Flags)
    (hd : 900 ≤ flags.duration ∧ flags.duration ≤ 43200)
    (hf : selectFormatter flags.outfmtStr = none) :
    validate flags = .error ("unknown output format: " ++ flags.outfmtStr) := by
  unfold validate
  rw [if_neg (by omega), hf]

theorem selectFormatter_eq_none (f : String) (h1 : f ≠ "sh") (h2 : f ≠ "text")
    (h3 : f ≠ "json") : selectFormatter f = none := by
  simp [selectFormatter, h1, h2, h3]

theorem main_of_validate_error (flags : Flags) (env : Env) (msg : String)
    (h : validate flags = .error msg) : main flags env = ⟨"", [], .fatal msg⟩ := by
  simp [main, h]

/-- C1: without the whoami flag and with a recognized output format, validation
accepts the duration exactly when it lies in [900, 43200]; a duration outside
the range ends the run with the fatal duration message, exit status 1, nothing
on standard output and no provider call. -/
theorem duration_validation (flags : Flags) (env : Env)
    (_hW : flags.whoamiMode = false)
    (hf : flags.outfmtStr = "sh" ∨ flags.outfmtStr = "text" ∨ flags.outfmtStr = "json") :
    ((∃ outfmt, validate flags = .ok outfmt)
        ↔ (900 ≤ flags.duration ∧ flags.duration ≤ 43200))
    ∧ (¬ (900 ≤ flags.duration ∧ flags.duration ≤ 43200) →
        validate flags = .error "session duration must be between 900 and 43200 seconds"
        ∧ main flags env
            = ⟨"", [], .fatal "session duration must be between 900 and 43200 seconds"⟩
        ∧ (main flags env).term.status ≠ 0
        ∧ (main flags env).trace = []) := by
  have hsel : ∃ outfmt, selectFormatter flags.outfmtStr = some outfmt := by
    rcases hf with h | h | h <;> rw [h]
    · exact ⟨.sh, by decide⟩
    · exact ⟨.text, by decide⟩
    · exact ⟨.json, by decide⟩
  refine ⟨⟨?_, ?_⟩, ?_⟩
  · rintro ⟨outfmt, h⟩
    exact ((validate_eq_ok_iff flags outfmt).mp h).1
  · intro hd
    obtain ⟨outfmt, h⟩ := hsel
    exact ⟨outfmt, (validate_eq_ok_iff flags outfmt).mpr ⟨hd, h⟩⟩
  · intro hd
    have hv := validate_bad_duration flags hd
    have hm := main_of_validate_error flags env _ hv
    refine ⟨hv, hm, ?_, ?_⟩ <;> simp [hm, Termination.status]

/-- Witness for C1: the lower bound 900 with the default format. -/
theorem duration_validation_witness :
    ((∃ outfmt, validate ⟨900, "sh", "", false⟩ = .ok outfmt)
        ↔ (900 ≤ (900 : Int) ∧ (900 : Int) ≤ 43200))
    ∧ (∃ outfmt, validate ⟨43200, "sh", "", false⟩ = .ok outfmt)
    ∧ (main ⟨899, "json", "", false⟩ sampleEnv).term.status ≠ 0
    ∧ (main ⟨43201, "text", "", false⟩ sampleEnv).trace = [] :=
  ⟨(duration_validation ⟨900, "sh", "", false⟩ sampleEnv rfl (Or.inl rfl)).1,
   (duration_validation ⟨43200, "sh", "", false⟩ sampleEnv rfl (Or.inl rfl)).1.mpr (by decide),
   ((duration_validation ⟨899, "json", "", false⟩ sampleEnv rfl (Or.inr (Or.inr rfl))).2
      (by decide)).2.2.1,
   ((duration_validation ⟨43201, "text", "", false⟩ sampleEnv rfl (Or.inr (Or.inl rfl))).2
      (by decide)).2.2.2⟩

/-- C2: with a valid duration, each of the strings sh, text and json selects
its own formatter (and only that one), the three formatters being distinct;
every other string, among them shell, the empty string and JSON, ends the run
with the fatal unknown-output-format message, exit status 1, nothing on
standard output and no provider call. -/
theorem format_selection (flags : Flags) (env : Env)
    (hd : 900 ≤ flags.duration ∧ flags.duration ≤ 43200) :
    (flags.outfmtStr = "sh" → ∀ outfmt, validate flags = .ok outfmt ↔ outfmt = .sh)
    ∧ (flags.outfmtStr = "text" → ∀ outfmt, validate flags = .ok outfmt ↔ outfmt = .text)
    ∧ (flags.outfmtStr = "json" → ∀ outfmt, validate flags = .ok outfmt ↔ outfmt = .json)
    ∧ (Formatter.call .sh = printCredsShell ∧ Formatter.call .text = printCredsText
        ∧ Formatter.call .json = printCredsJson)
    ∧ (Formatter.call .sh sampleCreds ≠ Formatter.call .text sampleCreds
        ∧ Formatter.call .sh sampleCreds ≠ Formatter.call .json sampleCreds
        ∧ Formatter.call .text sampleCreds ≠ Formatter.call .json sampleCreds)
    ∧ (flags.outfmtStr ≠ "sh" → flags.outfmtStr ≠ "text" → flags.outfmtStr ≠ "json" →
        validate flags = .error ("unknown output format: " ++ flags.outfmtStr)
        ∧ main flags env = ⟨"", [], .fatal ("unknown output format: " ++ flags.outfmtStr)⟩
        ∧ (main flags env).term.status ≠ 0
        ∧ (main flags env).stdout = ""
        ∧ (main flags env).trace = [])
    ∧ (selectFormatter "shell" = none ∧ selectFormatter "" = none
        ∧ selectFormatter "JSON" = none) := by
  refine ⟨?_, ?_, ?_, ⟨rfl, rfl, rfl⟩, ⟨by decide, by decide, by decide⟩, ?_,
    ⟨by decide, by decide, by decide⟩⟩
  · intro h outfmt
    have hs : selectFormatter flags.outfmtStr = some .sh := by rw [h]; decide
    rw [validate_eq_ok_iff, hs]
    constructor
    · rintro ⟨-, h'⟩; exact (Option.some.inj h').symm
    · rintro rfl; exact ⟨hd, rfl⟩
  · intro h outfmt
    have hs : selectFormatter flags.outfmtStr = some .text := by rw [h]; decide
    rw [validate_eq_ok_iff, hs]
    constructor
    · rintro ⟨-, h'⟩; exact (Option.some.inj h').symm
    · rintro rfl; exact ⟨hd, rfl⟩
  · intro h outfmt
    have hs : selectFormatter flags.outfmtStr = some .json := by rw [h]; decide
    rw [validate_eq_ok_iff, hs]
    constructor
    · rintro ⟨-, h'⟩; exact (Option.some.inj h').symm
    · rintro rfl; exact ⟨hd, rfl⟩
  · intro h1 h2 h3
    have hv := validate_bad_format flags hd (selectFormatter_eq_none _ h1 h2 h3)
    have hm := main_of_validate_error flags env _ hv
    refine ⟨hv, hm, ?_, ?_, ?_⟩ <;> simp [hm, Termination.status]

/-- Witness for C2: the format JSON in capitals, with the default duration. -/
theorem format_selection_witness :
    (main ⟨1800, "JSON", "", false⟩ sampleEnv).term = .fatal "unknown output format: JSON"
    ∧ (main ⟨1800, "JSON", "", false⟩ sampleEnv).stdout = ""
    ∧ validate ⟨1800, "json", "", false⟩ = .ok .json :=
  ⟨by
    have h := ((format_selection ⟨1800, "JSON", "", false⟩ sampleEnv (by decide)).2.2.2.2.2.1
      (by decide) (by decide) (by decide)).2.1
    rw [h]
    decide,
   ((format_selection ⟨1800, "JSON", "", false⟩ sampleEnv (by decide)).2.2.2.2.2.1
      (by decide) (by decide) (by decide)).2.2.2.1,
   ((format_selection ⟨1800, "json", "", false⟩ sampleEnv (by decide)).2.2.1 rfl _).mpr rfl⟩

/-! ## The run after validation -/

theorem main_whoami (flags : Flags) (env : Env) (outfmt : Formatter) (client : Client)
    (hv : validate flags = .ok outfmt) (hc : env.LoadDefaultConfig = .ok client)
    (hW : flags.whoamiMode = true) :
    main flags env =
      match client.GetCallerIdentity with
      | .error err =>
        ⟨"", [.getCallerIdentity (.error err)],
          .fatal ("unable to fetch caller identity: " ++ err)⟩
      | .ok resp =>
        match resp.Arn with
        | none => ⟨"", [.getCallerIdentity (.ok resp)], .panic nilDeref⟩
        | some arn => ⟨arn ++ "\n", [.getCallerIdentity (.ok resp)], .exit 0⟩ := by
  simp only [main, hv, hc, hW, if_true, printWhoami]
  cases client.GetCallerIdentity with
  | error err => rfl
  | ok resp => cases h : resp.Arn <;> simp [h]

theorem main_sessionToken (flags : Flags) (env : Env) (outfmt : Formatter) (client : Client)
    (hv : validate flags = .ok outfmt) (hc : env.LoadDefaultConfig = .ok client)
    (hW : flags.whoamiMode = false) (hr : flags.assumeRole = "") :
    main flags env =
      match client.GetSessionToken ⟨some (toInt32 flags.duration), none, none⟩ with
      | .error err =>
        ⟨"", [.getSessionToken ⟨some (toInt32 flags.duration), none, none⟩ (.error err)],
          .fatal ("unable to acquire session token: " ++ err)⟩
      | .ok resp =>
        emit outfmt [.getSessionToken ⟨some (toInt32 flags.duration), none, none⟩ (.ok resp)]
          resp.Credentials := by
  simp [main, hv, hc, hW, hr]

theorem main_assumeRole (flags : Flags) (env : Env) (outfmt : Formatter) (client : Client)
    (hv : validate flags = .ok outfmt) (hc : env.LoadDefaultConfig = .ok client)
    (hW : flags.whoamiMode = false) (hr : flags.assumeRole ≠ "") :
    main flags env =
      match client.AssumeRole ⟨some flags.assumeRole, some "awscredget", none⟩ with
      | .error err =>
        ⟨"", [.assumeRole ⟨some flags.assumeRole, some "awscredget", none⟩ (.error err)],
          .fatal ("unable to assume role " ++ flags.assumeRole ++ ": " ++ err)⟩
      | .ok resp =>
        emit outfmt [.assumeRole ⟨some flags.assumeRole, some "awscredget", none⟩ (.ok resp)]
          resp.Credentials := by
  simp [main, hv, hc, hW, hr]

theorem emit_trace (outfmt : Formatter) (trace : List Call) (creds : Option Credentials) :
    (emit outfmt trace creds).trace = trace := by
  unfold emit
  cases creds with
  | none => rfl
  | some c => cases h : outfmt.call c <;> simp [h]

theorem call_eq_none_of_missing (outfmt : Formatter) (c : Credentials)
    (h : credsMissing (some c) = true) : outfmt.call c = none := by
  obtain ⟨a, e, s, t⟩ := c
  cases outfmt <;> cases a <;> cases s <;> cases t <;>
    simp_all [credsMissing, Formatter.call, printCredsText, printCredsShell, printCredsJson]

theorem emit_of_missing (outfmt : Formatter) (trace : List Call) (creds : Option Credentials)
    (h : credsMissing creds = true) :
    emit outfmt trace creds = ⟨"", trace, .panic nilDeref⟩ := by
  cases creds with
  | none => rfl
  | some c => simp [emit, call_eq_none_of_missing outfmt c h]

theorem toInt32_of_valid (d : Int) (h : 900 ≤ d ∧ d ≤ 43200) : toInt32 d = d := by
  unfold toInt32
  omega

theorem main_trace_whoami (flags : Flags) (env : Env) (outfmt : Formatter) (client : Client)
    (hv : validate flags = .ok outfmt) (hc : env.LoadDefaultConfig = .ok client)
    (hW : flags.whoamiMode = true) :
    (main flags env).trace = [.getCallerIdentity client.GetCallerIdentity] := by
  rw [main_whoami flags env outfmt client hv hc hW]
  cases hg : client.GetCallerIdentity with
  | error err => rfl
  | ok resp => cases h : resp.Arn <;> simp [h]

theorem main_trace_sessionToken (flags : Flags) (env : Env) (outfmt : Formatter)
    (client : Client) (hv : validate flags = .ok outfmt)
    (hc : env.LoadDefaultConfig = .ok client)
    (hW : flags.whoamiMode = false) (hr : flags.assumeRole = "") :
    (main flags env).trace
      = [.getSessionToken ⟨some (toInt32 flags.duration), none, none⟩
          (client.GetSessionToken ⟨some (toInt32 flags.duration), none, none⟩)] := by
  rw [main_sessionToken flags env outfmt client hv hc hW hr]
  cases hg : client.GetSessionToken ⟨some (toInt32 flags.duration), none, none⟩ with
  | error err => rfl
  | ok resp => simp [emit_trace]

theorem main_trace_assumeRole (flags : Flags) (env : Env) (outfmt : Formatter)
    (client : Client) (hv : validate flags = .ok outfmt)
    (hc : env.LoadDefaultConfig = .ok client)
    (hW : flags.whoamiMode = false) (hr : flags.assumeRole ≠ "") :
    (main flags env).trace
      = [.assumeRole ⟨some flags.assumeRole, some "awscredget", none⟩
          (client.AssumeRole ⟨some flags.assumeRole, some "awscredget", none⟩)] := by
  rw [main_assumeRole flags env outfmt client hv hc hW hr]
  cases hg : client.AssumeRole ⟨some flags.assumeRole, some "awscredget", none⟩ with
  | error err => rfl
  | ok resp => simp [emit_trace]

/-- The trace of every run: no call, or exactly one. -/
theorem main_trace_cases (flags : Flags) (env : Env) :
    (main flags env).trace = []
    ∨ (∃ client outfmt, validate flags = .ok outfmt ∧ env.LoadDefaultConfig = .ok client
        ∧ ((flags.whoamiMode = true
            ∧ (main flags env).trace = [.getCallerIdentity client.GetCallerIdentity])
          ∨ (flags.whoamiMode = false ∧ flags.assumeRole = ""
            ∧ (main flags env).trace
                = [.getSessionToken ⟨some (toInt32 flags.duration), none, none⟩
                    (client.GetSessionToken ⟨some (toInt32 flags.duration), none, none⟩)])
          ∨ (flags.whoamiMode = false ∧ flags.assumeRole ≠ ""
            ∧ (main flags env).trace
                = [.assumeRole ⟨some flags.assumeRole, some "awscredget", none⟩
                    (client.AssumeRole ⟨some flags.assumeRole, some "awscredget", none⟩)]))) := by
  cases hv : validate flags with
  | error msg => left; simp [main, hv]
  | ok outfmt =>
    cases hc : env.LoadDefaultConfig with
    | error err => left; simp [main, hv, hc]
    | ok client =>
      right
      refine ⟨client, outfmt, rfl, rfl, ?_⟩
      cases hW : flags.whoamiMode with
      | true => exact Or.inl ⟨rfl, main_trace_whoami flags env outfmt client hv hc hW⟩
      | false =>
        right
        by_cases hr : flags.assumeRole = ""
        · exact Or.inl ⟨rfl, hr, main_trace_sessionToken flags env outfmt client hv hc hW hr⟩
        · exact Or.inr ⟨rfl, hr, main_trace_assumeRole flags env outfmt client hv hc hW hr⟩

/-! ## The claims about the run -/

/-- C3 (the code at the failing input): with the whoami flag set, a duration of
5 seconds, or the format xml, still ends the run with the validation error,
before any caller-identity lookup; with valid values the same environment
prints the ARN. -/
theorem whoami_validation_still_applies :
    main ⟨5, "sh", "", true⟩ sampleEnv
      = ⟨"", [], .fatal "session duration must be between 900 and 43200 seconds"⟩
    ∧ main ⟨1800, "xml", "", true⟩ sampleEnv = ⟨"", [], .fatal "unknown output format: xml"⟩
    ∧ (main ⟨1800, "sh", "", true⟩ sampleEnv).stdout = "arn:aws:iam::123:user/x\n"
    ∧ (main ⟨1800, "sh", "", true⟩ sampleEnv).term = .exit 0 :=
  ⟨rfl, rfl, rfl, rfl⟩

/-- C4 (counterexample): the default invocation is validated and is not a
whoami run, yet when loading the SDK configuration fails neither operation is
called. -/
theorem no_call_when_config_fails :
    validate defaultFlags = .ok .sh
    ∧ defaultFlags.whoamiMode = false
    ∧ (main defaultFlags brokenConfigEnv).trace.countP Call.isSessionToken = 0
    ∧ (main defaultFlags brokenConfigEnv).trace.countP Call.isAssumeRole = 0
    ∧ (main defaultFlags brokenConfigEnv).term
        = .fatal "unable to load AWS SDK config: failed to load shared config file" :=
  ⟨rfl, rfl, rfl, rfl, rfl⟩

/-- C4 (amended): for every validated non-whoami invocation whose SDK
configuration loads, assume-role is called exactly when the role ARN is
non-empty and get-session-token exactly when it is empty; exactly one of the
two is called, exactly once, and no other call is made. -/
theorem credential_path_selection (flags : Flags) (env : Env) (outfmt : Formatter)
    (client : Client) (hv : validate flags = .ok outfmt)
    (hW : flags.whoamiMode = false) (hc : env.LoadDefaultConfig = .ok client) :
    ((∃ c ∈ (main flags env).trace, c.isAssumeRole = true) ↔ flags.assumeRole ≠ "")
    ∧ ((∃ c ∈ (main flags env).trace, c.isSessionToken = true) ↔ flags.assumeRole = "")
    ∧ (main flags env).trace.countP Call.isAssumeRole
        + (main flags env).trace.countP Call.isSessionToken = 1
    ∧ (main flags env).trace.length = 1 := by
  by_cases hr : flags.assumeRole = ""
  · rw [main_trace_sessionToken flags env outfmt client hv hc hW hr]
    simp [hr, Call.isAssumeRole, Call.isSessionToken]
  · rw [main_trace_assumeRole flags env outfmt client hv hc hW hr]
    simp [hr, Call.isAssumeRole, Call.isSessionToken]

/-- Witness for C4 (amended): the role arn:aws:iam::123:role/r with the default
duration and format. -/
theorem credential_path_selection_witness :
    (main ⟨1800, "sh", "arn:aws:iam::123:role/r", false⟩ sampleEnv).trace.countP Call.isAssumeRole
        + (main ⟨1800, "sh", "arn:aws:iam::123:role/r", false⟩ sampleEnv).trace.countP
            Call.isSessionToken = 1
    ∧ (main ⟨1800, "sh", "arn:aws:iam::123:role/r", false⟩ sampleEnv).trace.length = 1 :=
  (credential_path_selection ⟨1800, "sh", "arn:aws:iam::123:role/r", false⟩ sampleEnv .sh
    sampleClient rfl rfl rfl).2.2

/-- C7: in whoami mode, when the run made the caller-identity lookup and it
came back with the ARN `a`, standard output is `a` and a newline and nothing
else, the exit status is 0, and the lookup is the only provider call: neither
get-session-token nor assume-role is called, whatever the role ARN option. -/
theorem whoami_prints_arn (flags : Flags) (env : Env) (resp : GetCallerIdentityOutput)
    (a : String) (hW : flags.whoamiMode = true)
    (hcall : Call.getCallerIdentity (.ok resp) ∈ (main flags env).trace)
    (ha : resp.Arn = some a) :
    (main flags env).stdout = a ++ "\n"
    ∧ (main flags env).term = .exit 0
    ∧ (main flags env).term.status = 0
    ∧ (main flags env).trace = [Call.getCallerIdentity (.ok resp)]
    ∧ (main flags env).trace.countP Call.isSessionToken = 0
    ∧ (main flags env).trace.countP Call.isAssumeRole = 0 := by
  rcases main_trace_cases flags env with h | ⟨client, outfmt, hv, hc, h⟩
  · rw [h] at hcall
    cases hcall
  · rcases h with ⟨-, h⟩ | ⟨hW', -⟩ | ⟨hW', -⟩
    · rw [h, List.mem_singleton] at hcall
      have hg : client.GetCallerIdentity = .ok resp := by
        injection hcall with hg
        exact hg.symm
      rw [main_whoami flags env outfmt client hv hc hW]
      simp [hg, ha, Termination.status, Call.isSessionToken, Call.isAssumeRole]
    · rw [hW] at hW'
      cases hW'
    · rw [hW] at hW'
      cases hW'

/-- Witness for C7: the identity arn:aws:iam::123:user/x, with a role ARN
given as well. -/
theorem whoami_prints_arn_witness :
    (main ⟨1800, "sh", "arn:aws:iam::123:role/r", true⟩ sampleEnv).stdout
        = "arn:aws:iam::123:user/x" ++ "\n"
    ∧ (main ⟨1800, "sh", "arn:aws:iam::123:role/r", true⟩ sampleEnv).term.status = 0
    ∧ (main ⟨1800, "sh", "arn:aws:iam::123:role/r", true⟩ sampleEnv).trace.countP
        Call.isAssumeRole = 0 :=
  have h := whoami_prints_arn ⟨1800, "sh", "arn:aws:iam::123:role/r", true⟩ sampleEnv
    ⟨some "123", some "arn:aws:iam::123:user/x", some "AIDAX"⟩ "arn:aws:iam::123:user/x" rfl
    (List.mem_singleton.mpr rfl) rfl
  ⟨h.1, h.2.2.1, h.2.2.2.2.2⟩

/-- C8: when a provider call of the run came back with an error, the process
ends through `log.Fatal` (exit status 1, so non-zero), nothing at all is on
standard output, and the failed call is the only provider call of the run. -/
theorem provider_error_is_fatal (flags : Flags) (env : Env) (c : Call)
    (hc : c ∈ (main flags env).trace) (hf : c.failed = true) :
    (main flags env).term.status ≠ 0
    ∧ (main flags env).stdout = ""
    ∧ (main flags env).trace = [c]
    ∧ (∃ msg, (main flags env).term = .fatal msg) := by
  rcases main_trace_cases flags env with h | ⟨client, outfmt, hv, hcfg, h⟩
  · rw [h] at hc
    cases hc
  · rcases h with ⟨hW, h⟩ | ⟨hW, hr, h⟩ | ⟨hW, hr, h⟩
    · rw [h, List.mem_singleton] at hc
      subst hc
      rw [main_whoami flags env outfmt client hv hcfg hW]
      cases hg : client.GetCallerIdentity with
      | error err => simp [Termination.status]
      | ok resp => simp [hg, Call.failed] at hf
    · rw [h, List.mem_singleton] at hc
      subst hc
      rw [main_sessionToken flags env outfmt client hv hcfg hW hr]
      cases hg : client.GetSessionToken ⟨some (toInt32 flags.duration), none, none⟩ with
      | error err => simp [Termination.status]
      | ok resp => simp [hg, Call.failed] at hf
    · rw [h, List.mem_singleton] at hc
      subst hc
      rw [main_assumeRole flags env outfmt client hv hcfg hW hr]
      cases hg : client.AssumeRole ⟨some flags.assumeRole, some "awscredget", none⟩ with
      | error err => simp [Termination.status]
      | ok resp => simp [hg, Call.failed] at hf

/-- Witness for C8: assume-role answered with AccessDenied. -/
theorem provider_error_is_fatal_witness :
    (main ⟨1800, "json", "arn:aws:iam::123:role/r", false⟩ failingEnv).term.status ≠ 0
    ∧ (main ⟨1800, "json", "arn:aws:iam::123:role/r", false⟩ failingEnv).stdout = ""
    ∧ (main ⟨1800, "json", "arn:aws:iam::123:role/r", false⟩ failingEnv).trace
        = [.assumeRole ⟨some "arn:aws:iam::123:role/r", some "awscredget", none⟩
            (.error "AccessDenied")] :=
  have h := provider_error_is_fatal ⟨1800, "json", "arn:aws:iam::123:role/r", false⟩ failingEnv
    (.assumeRole ⟨some "arn:aws:iam::123:role/r", some "awscredget", none⟩
      (.error "AccessDenied")) (List.mem_singleton.mpr rfl) rfl
  ⟨h.1, h.2.1, h.2.2.1⟩

/-- C9 (counterexample): a successful get-session-token response without a
credentials object, a successful assume-role response without one, and a
successful caller-identity response without an ARN each end the run with the
runtime's nil-dereference panic (exit status 2), not with a `log.Fatal`
message naming the operation. -/
theorem missing_fields_not_named :
    (∃ c ∈ (main defaultFlags emptyResponseEnv).trace, c.missingFields = true)
    ∧ (main defaultFlags emptyResponseEnv).term = .panic nilDeref
    ∧ (¬ ∃ msg, (main defaultFlags emptyResponseEnv).term = .fatal msg)
    ∧ (main ⟨1800, "sh", "arn:aws:iam::123:role/r", false⟩ emptyResponseEnv).term
        = .panic nilDeref
    ∧ (main ⟨1800, "sh", "", true⟩ emptyResponseEnv).term = .panic nilDeref :=
  ⟨⟨_, List.mem_singleton.mpr rfl, rfl⟩, rfl,
   by simp [show (main defaultFlags emptyResponseEnv).term = .panic nilDeref from rfl],
   rfl, rfl⟩

/-- C9 (amended): when a provider call of the run came back with a successful
status but without the credentials object, the access key id, the secret
access key or the session token, or (caller identity) without the ARN, the
process ends with the runtime's nil-dereference panic, exit status 2, writes
nothing to standard output and makes no further provider call. -/
theorem missing_fields_panic (flags : Flags) (env : Env) (c : Call)
    (hc : c ∈ (main flags env).trace) (hm : c.missingFields = true) :
    (main flags env).term = .panic nilDeref
    ∧ (main flags env).term.status = 2
    ∧ (main flags env).term.status ≠ 0
    ∧ (main flags env).stdout = ""
    ∧ (main flags env).trace = [c] := by
  rcases main_trace_cases flags env with h | ⟨client, outfmt, hv, hcfg, h⟩
  · rw [h] at hc
    cases hc
  · rcases h with ⟨hW, h⟩ | ⟨hW, hr, h⟩ | ⟨hW, hr, h⟩
    · rw [h, List.mem_singleton] at hc
      subst hc
      rw [main_whoami flags env outfmt client hv hcfg hW]
      cases hg : client.GetCallerIdentity with
      | error err => simp [hg, Call.missingFields] at hm
      | ok resp =>
        cases ha : resp.Arn with
        | none => simp [ha, Termination.status]
        | some arn => simp [hg, ha, Call.missingFields] at hm
    · rw [h, List.mem_singleton] at hc
      subst hc
      rw [main_sessionToken flags env outfmt client hv hcfg hW hr]
      cases hg : client.GetSessionToken ⟨some (toInt32 flags.duration), none, none⟩ with
      | error err => simp [hg, Call.missingFields] at hm
      | ok resp =>
        have hmiss : credsMissing resp.Credentials = true := by
          simpa [hg, Call.missingFields] using hm
        simp [emit_of_missing outfmt _ _ hmiss, Termination.status]
    · rw [h, List.mem_singleton] at hc
      subst hc
      rw [main_assumeRole flags env outfmt client hv hcfg hW hr]
      cases hg : client.AssumeRole ⟨some flags.assumeRole, some "awscredget", none⟩ with
      | error err => simp [hg, Call.missingFields] at hm
      | ok resp =>
        have hmiss : credsMissing resp.Credentials = true := by
          simpa [hg, Call.missingFields] using hm
        simp [emit_of_missing outfmt _ _ hmiss, Termination.status]

/-- Witness for C9 (amended): a get-session-token response without a
credentials object. -/
theorem missing_fields_panic_witness :
    (main defaultFlags emptyResponseEnv).term = .panic nilDeref
    ∧ (main defaultFlags emptyResponseEnv).term.status = 2
    ∧ (main defaultFlags emptyResponseEnv).stdout = "" :=
  have h := missing_fields_panic defaultFlags emptyResponseEnv
    (.getSessionToken ⟨some 1800, none, none⟩ (.ok ⟨none⟩)) (List.mem_singleton.mpr rfl) rfl
  ⟨h.1, h.2.1, h.2.2.2.1⟩

/-- C10: for two validated invocations with the same role ARN and whoami flag
whose SDK configuration loads, the duration reaches the provider only on the
session-token path. There the request carries exactly the duration (the
conversion to a 32-bit integer changes nothing); on the assume-role path the
request is the role ARN, the session name awscredget and no duration, the
same for both durations; in whoami mode it is the bare caller-identity
request. -/
theorem duration_only_on_session_token_path (f1 f2 : Flags) (env : Env) (o1 o2 : Formatter)
    (client : Client) (h1 : validate f1 = .ok o1) (h2 : validate f2 = .ok o2)
    (hc : env.LoadDefaultConfig = .ok client)
    (hrole : f1.assumeRole = f2.assumeRole) (hwho : f1.whoamiMode = f2.whoamiMode) :
    toInt32 f1.duration = f1.duration
    ∧ (f1.whoamiMode = false → f1.assumeRole = "" →
        (main f1 env).trace.map Call.request
          = [.getSessionToken ⟨some f1.duration, none, none⟩])
    ∧ (f1.whoamiMode = false → f1.assumeRole ≠ "" →
        (main f1 env).trace.map Call.request
            = [.assumeRole ⟨some f1.assumeRole, some "awscredget", none⟩]
        ∧ (main f2 env).trace.map Call.request = (main f1 env).trace.map Call.request)
    ∧ (f1.whoamiMode = true →
        (main f1 env).trace.map Call.request = [.getCallerIdentity]
        ∧ (main f2 env).trace.map Call.request = (main f1 env).trace.map Call.request) := by
  have hd : toInt32 f1.duration = f1.duration :=
    toInt32_of_valid _ ((validate_eq_ok_iff f1 o1).mp h1).1
  refine ⟨hd, ?_, ?_, ?_⟩
  · intro hW hr
    rw [main_trace_sessionToken f1 env o1 client h1 hc hW hr, hd]
    rfl
  · intro hW hr
    rw [main_trace_assumeRole f1 env o1 client h1 hc hW hr,
      main_trace_assumeRole f2 env o2 client h2 hc (hwho ▸ hW) (hrole ▸ hr), hrole]
    exact ⟨rfl, rfl⟩
  · intro hW
    rw [main_trace_whoami f1 env o1 client h1 hc hW,
      main_trace_whoami f2 env o2 client h2 hc (hwho ▸ hW)]
    exact ⟨rfl, rfl⟩

/-- Witness for C10: the durations 900 and 43200 with one role ARN. -/
theorem duration_only_on_session_token_path_witness :
    (main ⟨43200, "sh", "arn:aws:iam::123:role/r", false⟩ sampleEnv).trace.map Call.request
        = (main ⟨900, "sh", "arn:aws:iam::123:role/r", false⟩ sampleEnv).trace.map Call.request
    ∧ (main ⟨900, "sh", "arn:aws:iam::123:role/r", false⟩ sampleEnv).trace.map Call.request
        = [.assumeRole ⟨some "arn:aws:iam::123:role/r", some "awscredget", none⟩]
    ∧ (main ⟨43200, "sh", "", false⟩ sampleEnv).trace.map Call.request
        = [.getSessionToken ⟨some 43200, none, none⟩] :=
  have h := duration_only_on_session_token_path ⟨900, "sh", "arn:aws:iam::123:role/r", false⟩
    ⟨43200, "sh", "arn:aws:iam::123:role/r", false⟩ sampleEnv .sh .sh sampleClient rfl rfl rfl
    rfl rfl
  have h' := duration_only_on_session_token_path ⟨43200, "sh", "", false⟩
    ⟨43200, "sh", "", false⟩ sampleEnv .sh .sh sampleClient rfl rfl rfl rfl rfl
  ⟨(h.2.2.1 rfl (by decide)).2, (h.2.2.1 rfl (by decide)).1, h'.2.1 rfl rfl⟩

/-! ## The formatters -/

/-- C5: for every access key id, secret access key and session token, the
shell format prints the three export lines in order, each value passed through
`Quote`; reading each quoted word back by shell word parsing gives the
original value, and reading the whole output as a script of export lines gives
the three assignments with the original values. The sample values AK1, SK/1
and TOK=1 are printed unquoted. -/
theorem shell_format_roundtrip (a s t : String) (e : Option Time) :
    printCredsShell ⟨some a, e, some s, some t⟩
        = some ("export AWS_ACCESS_KEY_ID=" ++ Quote a ++ "\nexport AWS_SECRET_ACCESS_KEY="
            ++ Quote s ++ "\nexport AWS_SESSION_TOKEN=" ++ Quote t ++ "\n")
    ∧ shellWord (Quote a) = some a
    ∧ shellWord (Quote s) = some s
    ∧ shellWord (Quote t) = some t
    ∧ (printCredsShell ⟨some a, e, some s, some t⟩).bind evalExports
        = some ["AWS_ACCESS_KEY_ID=" ++ a, "AWS_SECRET_ACCESS_KEY=" ++ s,
            "AWS_SESSION_TOKEN=" ++ t]
    ∧ (Quote "AK1" = "AK1" ∧ Quote "SK/1" = "SK/1" ∧ Quote "TOK=1" = "TOK=1")
    ∧ printCredsShell sampleCreds
        = some ("export AWS_ACCESS_KEY_ID=AK1\nexport AWS_SECRET_ACCESS_KEY=SK/1\n"
            ++ "export AWS_SESSION_TOKEN=TOK=1\n") := by
  refine ⟨rfl, shellWord_Quote a, shellWord_Quote s, shellWord_Quote t, ?_,
    ⟨by decide, by decide, by decide⟩, by decide⟩
  show Option.bind (some _) evalExports = _
  rw [Option.some_bind, evalExports_shellOutput]

/-- C6: for every credentials value, the json format prints the marshalled
map and a newline; decoding the output gives one object whose only key is
Credentials, holding exactly the four string fields AccessKeyId, Expiration,
SecretAccessKey and SessionToken, with the three credential strings unchanged
and Expiration the RFC 3339 text of the expiration time. For the sample
credentials the decoded fields are those of the text in the specification, up
to the order of the keys. -/
theorem json_format_roundtrip (a s t : String) (e : Time) :
    printCredsJson ⟨some a, some e, some s, some t⟩
        = some (⟨marshalInterfaceMap (jsonData a s t e)⟩ ++ "\n")
    ∧ (printCredsJson ⟨some a, some e, some s, some t⟩).bind decodeJSON
        = some (JValue.obj [("Credentials", JValue.obj [("AccessKeyId", JValue.str a),
            ("Expiration", JValue.str (formatRFC3339 e)), ("SecretAccessKey", JValue.str s),
            ("SessionToken", JValue.str t)])])
    ∧ formatRFC3339 ⟨1704207845, 0⟩ = "2024-01-02T15:04:05Z"
    ∧ printCredsJson sampleCreds
        = some ("\x7b\"Credentials\":\x7b\"AccessKeyId\":\"AK1\","
            ++ "\"Expiration\":\"2024-01-02T15:04:05Z\",\"SecretAccessKey\":\"SK/1\","
            ++ "\"SessionToken\":\"TOK=1\"\x7d\x7d\n")
    ∧ credentialFields ((printCredsJson sampleCreds).bind decodeJSON)
        = some [("AccessKeyId", "AK1"), ("Expiration", "2024-01-02T15:04:05Z"),
            ("SecretAccessKey", "SK/1"), ("SessionToken", "TOK=1")]
    ∧ credentialFields (decodeJSON specJSON)
        = some [("AccessKeyId", "AK1"), ("SecretAccessKey", "SK/1"),
            ("SessionToken", "TOK=1"), ("Expiration", "2024-01-02T15:04:05Z")]
    ∧ List.Perm
        [("AccessKeyId", "AK1"), ("Expiration", "2024-01-02T15:04:05Z"),
          ("SecretAccessKey", "SK/1"), ("SessionToken", "TOK=1")]
        [("AccessKeyId", "AK1"), ("SecretAccessKey", "SK/1"),
          ("SessionToken", "TOK=1"), ("Expiration", "2024-01-02T15:04:05Z")] := by
  refine ⟨rfl, ?_, by decide, by decide, ?_, ?_, ?_⟩
  · show Option.bind (some _) decodeJSON = _
    rw [Option.some_bind, decodeJSON_jsonData]
    rfl
  · have h : printCredsJson sampleCreds
        = some (⟨marshalInterfaceMap (jsonData "AK1" "SK/1" "TOK=1" ⟨1704207845, 0⟩)⟩ ++ "\n") :=
      rfl
    have ht : formatRFC3339 ⟨1704207845, 0⟩ = "2024-01-02T15:04:05Z" := by decide
    rw [h, Option.some_bind, decodeJSON_jsonData, ht]
    rfl
  · set_option maxRecDepth 100000 in decide
  · exact List.Perm.cons _ ((List.Perm.swap _ _ _).trans
      (List.Perm.cons _ (List.Perm.swap _ _ _)))

end Awscredget
